import Mathlib

/-!
Shallow embedding of the selection-and-commit pipeline of
`Nature_Poster_Photos.py` (class `Pexels_Photo_Processing`, function
`process_photos`, and the driver `main`).

The four collaborator modules (`database.py`, `image_processing.py`,
`text_processing.py`, `fb_posting.py`) are not part of the sources; their
behaviour is modelled from the spec as oracle functions gathered in `Env`
and as a small persistent-store model `Database`.  Observable side effects
(store reads, downloads, publish calls, appends, connection close) are
recorded in an explicit effect trace.
-/

namespace NaturePoster

/-- Candidate photo metadata, as consumed by `process_photos`: the fields of a
Pexels photo object that the pipeline reads (`id`, `description`, `extension`,
the `large` / `large2x` / `original` download references, `photographer`,
`url`).  `photo.id` is kept as a string, absorbing the source's `str(photo.id)`
conversions. -/
structure Photo where
  id : String
  description : String
  extension : String
  large : String
  large2x : String
  original : String
  photographer : String
  url : String

/-- The durable record written on a successful publish: the ten components of
`data_to_log` (source lines 103-107), in the source's tuple order:
timestamp, raw response, description, attribution, identifier, url,
primary ref (`large2x`), original ref, size, hash. -/
structure PostRecord where
  timestamp : String
  rawResponse : String
  description : String
  photographer : String
  id : String
  url : String
  large2x : String
  original : String
  size : Nat
  hash : String
deriving DecidableEq

/-- Modelled from the spec: the PersistentStore state behind `database.py`
(missing from the sources).  It holds the denylist words, the table of logged
`PostRecord`s, and whether the sqlite connection is open (the source closes it
via `database.connect.close()`). -/
structure Database where
  badWords : List String
  posts : List PostRecord
  connOpen : Bool
deriving DecidableEq

/-- Modelled from the spec: `PersistentStore.valuesOf(tableOrCategory,
columnOrField) → sequence of string`, the contract behind
`retrieve_values_from_table_column`.  The three reads the pipeline makes are
the denylist (`Bad_Words`/`Bad_Words`), the logged identifiers
(`Nature_Bot_Logged_FB_Posts`/`ID`) and the logged hashes
(`Nature_Bot_Logged_FB_Posts`/`Image_Hash`).  A read on a closed connection
fails (`none`), modelling the sqlite error that would propagate. -/
def Database.valuesOf (db : Database) (table col : String) : Option (List String) :=
  if db.connOpen = false then none
  else if table = "Bad_Words" ∧ col = "Bad_Words" then some db.badWords
  else if table = "Nature_Bot_Logged_FB_Posts" ∧ col = "ID" then
    some (db.posts.map (fun r => r.id))
  else if table = "Nature_Bot_Logged_FB_Posts" ∧ col = "Image_Hash" then
    some (db.posts.map (fun r => r.hash))
  else some []

/-- Modelled from the spec: `append(record, destinationTable)` behind
`log_to_DB` — an all-or-nothing append of one `PostRecord`. -/
def Database.log_to_DB (db : Database) (r : PostRecord) : Database :=
  { db with posts := db.posts ++ [r] }

/-- Closing of the sqlite connection, `database.connect.close()`. -/
def Database.closeConn (db : Database) : Database :=
  { db with connOpen := false }

/-- Oracles for the external collaborators whose code is not in the sources,
modelled from the spec (section 6):
* `sizeOfBytes` — `ImageAnalysis.sizeOf(reference)`, the byte-size estimate of
  a download reference;
* `acceptableExtension` — `Text_Processing.acceptable_extension_for_photo_posting`,
  membership of the format tag in the implementation-defined allowed set;
* `hashOf` / `ocrOf` — perceptual hash and recognized text of the bytes behind
  a download reference (`hash_image` / `ocr_text` applied to the downloaded
  file);
* `publishResponse` — `FB_Posting.post_photo_to_fb`, the raw provider response;
* `postIdOf` — `Text_Processing.get_post_id_from_json`: the newly created post
  identifier found in the response, or `none` when the response lacks one.
  The source decides success by substring containment of the extracted
  identifier in the raw response; under this model that is `Option.isSome`;
* `now` — the `datetime.now()` timestamp string. -/
structure Env where
  sizeOfBytes : String → Nat
  acceptableExtension : String → Bool
  hashOf : String → String
  ocrOf : String → String
  publishResponse : Photo → String
  postIdOf : String → Option String
  now : String

/-- Modelled from the spec: `Image_Processing.get_file_size` (missing from the
sources).  The spec fixes the size ceiling at 4,000,000 BYTES while the source
compares the returned number against 4000, so the returned number is the
byte-size estimate in kilobytes (floor); with floor division the source's
`photo_file_size >= 4000` test is exactly `byte size >= 4,000,000`. -/
def get_file_size (env : Env) (ref : String) : Nat :=
  env.sizeOfBytes ref / 1000

/-- Character-wise embedding of the source's `photo.description.replace("-", " ")`
(single-character pattern and replacement, so Python `str.replace` is a
character map). -/
def replaceHyphens (s : String) : String :=
  String.mk (s.data.map (fun ch => if ch = '-' then ' ' else ch))

/-- Helper for `splitOnSpace`: splits a character list at every space,
keeping empty pieces, like Python `str.split(" ")`. -/
def splitOnSpaceAux : List Char → List Char → List String
  | [], acc => [String.mk acc.reverse]
  | c :: cs, acc =>
    if c = ' ' then String.mk acc.reverse :: splitOnSpaceAux cs []
    else splitOnSpaceAux cs (c :: acc)

/-- Embedding of the source's `.split(" ")`: split at every single space
character, keeping empty tokens (Python semantics). -/
def splitOnSpace (s : String) : List String :=
  splitOnSpaceAux s.data []

/-- The source's line 67 denylist test:
`any(word in photo_description_word_check for word in bad_words_list)`. -/
def descHasBadWord (badWordsList tokens : List String) : Bool :=
  badWordsList.any (fun w => tokens.contains w)

/-- Modelled from the spec: `Text_Processing.there_are_badwords` (missing from
the sources) — tokenize the recognized text on whitespace and test whether any
token matches a denylist entry. -/
def there_are_badwords (text : String) (badWordsList : List String) : Bool :=
  (splitOnSpace text).any (fun w => badWordsList.contains w)

/-- Observable side effects of one `process_photos` call, in program order:
size lookup (`get_file_size`), store read (`retrieve_values_from_table_column`),
download (`write_image`), hashing (`hash_image`), text recognition (`ocr_text`),
publish attempt (`post_photo_to_fb`), caption amendment
(`edit_fb_post_caption_for_pexels_photo_posting`), record append (`log_to_DB`),
connection close (`connect.close`). -/
inductive Effect where
  | sizeLookup (ref : String)
  | storeRead (table col : String)
  | download (ref target : String)
  | hashImage (target : String)
  | ocr (target : String)
  | publish (photoId : String)
  | editCaption (postId desc url : String)
  | logAppend (r : PostRecord)
  | closeStore
deriving DecidableEq

/-- Return value of `process_photos`: `posted r` is the truthy `data_to_log`
tuple, `failsafe` is the `return True` at line 53, `exhausted` is the implicit
`None` when the loop completes the page, and `storeError` models an uncaught
store exception (read on a closed connection) aborting the call. -/
inductive ProcessResult where
  | posted (r : PostRecord)
  | failsafe
  | exhausted
  | storeError
deriving DecidableEq

/-- Outcome of one iteration of the `for photo in photos` loop: either fall
through to the next candidate (`continue`) carrying the updated
`attempted_posts`, or leave the loop with a result and the updated store. -/
inductive StepOut where
  | next (counter : Nat)
  | halt (r : ProcessResult) (db : Database)
deriving DecidableEq

/-- The `data_to_log` tuple of source lines 103-107 for a candidate: the ten
components in the source's order (timestamp, raw response, normalized
description, photographer, identifier, url, `large2x`, `original`, size,
hash). -/
def mkRecord (env : Env) (photo : Photo) : PostRecord :=
  { timestamp := env.now
    rawResponse := env.publishResponse photo
    description := replaceHyphens photo.description
    photographer := photo.photographer
    id := photo.id
    url := photo.url
    large2x := photo.large2x
    original := photo.original
    size := get_file_size env photo.large
    hash := env.hashOf photo.large2x }

/-- One iteration of the loop body of `process_photos` (source lines 41-112)
for a single candidate, returning the control outcome and the effect trace of
the iteration.  The statement order follows the source exactly: description
normalization and tokenization (43-44), size lookup (45), denylist read (46),
failsafe gate (52), extension gate (56), prior-identifier gate (60), size gate
(64), description-denylist gate (67), download (71), hash (74),
perceptual-duplicate gate (77), recognized-text gate (80-82), publish attempt
and identifier extraction (85-87), failure bookkeeping (89-91) or caption
amendment, append, close and return (93-112). -/
def processStep (env : Env) (db : Database) (attempted_posts : Nat) (photo : Photo) :
    StepOut × List Effect :=
  let photo_description := replaceHyphens photo.description
  let photo_description_word_check := splitOnSpace photo_description
  let photo_file_size := get_file_size env photo.large
  let t1 : List Effect := [.sizeLookup photo.large, .storeRead "Bad_Words" "Bad_Words"]
  match db.valuesOf "Bad_Words" "Bad_Words" with
  | none => (.halt .storeError db, t1)
  | some bad_words_list =>
    if attempted_posts ≥ 5 then (.halt .failsafe db, t1)
    else if env.acceptableExtension photo.extension = false then (.next attempted_posts, t1)
    else
      let t2 := t1 ++ [.storeRead "Nature_Bot_Logged_FB_Posts" "ID"]
      match db.valuesOf "Nature_Bot_Logged_FB_Posts" "ID" with
      | none => (.halt .storeError db, t2)
      | some loggedIds =>
        if photo.id ∈ loggedIds then (.next attempted_posts, t2)
        else if photo_file_size ≥ 4000 then (.next attempted_posts, t2)
        else if descHasBadWord bad_words_list photo_description_word_check then
          (.next attempted_posts, t2)
        else
          let t3 := t2 ++ [.download photo.large2x "image.jpg", .hashImage "image.jpg"]
          let hash_str := env.hashOf photo.large2x
          let t4 := t3 ++ [.storeRead "Nature_Bot_Logged_FB_Posts" "Image_Hash"]
          match db.valuesOf "Nature_Bot_Logged_FB_Posts" "Image_Hash" with
          | none => (.halt .storeError db, t4)
          | some loggedHashes =>
            if hash_str ∈ loggedHashes then (.next attempted_posts, t4)
            else
              let image_text := env.ocrOf photo.large2x
              let t5 := t4 ++ [.ocr "image.jpg"]
              if there_are_badwords image_text bad_words_list then
                (.next attempted_posts, t5)
              else
                let post_to_fb_request := env.publishResponse photo
                let t6 := t5 ++ [.publish photo.id]
                match env.postIdOf post_to_fb_request with
                | none => (.next (attempted_posts + 1), t6)
                | some fb_post_id =>
                  let data_to_log : PostRecord := mkRecord env photo
                  let db2 := (db.log_to_DB data_to_log).closeConn
                  let t7 := t6 ++ [.editCaption fb_post_id photo_description photo.url,
                                   .logAppend data_to_log, .closeStore]
                  (.halt (.posted data_to_log) db2, t7)

/-- Full outcome of one `process_photos` call: result, store state afterwards,
final value of the call-local `attempted_posts`, and the effect trace. -/
structure PPResult where
  result : ProcessResult
  db : Database
  counter : Nat
  trace : List Effect
deriving DecidableEq

/-- `Pexels_Photo_Processing.process_photos(photos, attempted_posts, database)`:
iterate the loop body over the page; when the loop completes without an early
return, the Python function falls through and returns `None` (`exhausted`). -/
def process_photos (env : Env) (photos : List Photo) (db : Database)
    (attempted_posts : Nat) : PPResult :=
  match photos with
  | [] => ⟨.exhausted, db, attempted_posts, []⟩
  | p :: rest =>
    match processStep env db attempted_posts p with
    | (.next c, tr) =>
      let out := process_photos env rest db c
      ⟨out.result, out.db, out.counter, tr ++ out.trace⟩
    | (.halt r db2, tr) => ⟨r, db2, attempted_posts, tr⟩

/-- Truthiness of the value `process_photos` hands back to `main`'s
`done` flag: `True` and the nonempty `data_to_log` tuple are truthy, `None` is
falsy; a propagating store exception also ends the loop (it kills the run). -/
def ProcessResult.truthy : ProcessResult → Bool
  | .exhausted => false
  | _ => true

/-- The `while not done` loop of `main` over a stream of pages, recording for
each `process_photos` call the `attempted_posts` value passed in and the call's
full outcome.  Faithful to the source: `main` initializes `attempted_posts = 0`
once, never reassigns it, and Python passes the integer by value, so the
recursion hands every call the same `attempted_posts` while threading the
mutated `database` object. -/
def mainLoop (env : Env) (db : Database) (attempted_posts : Nat) :
    List (List Photo) → List (Nat × PPResult)
  | [] => []
  | page :: rest =>
    let out := process_photos env page db attempted_posts
    if out.result.truthy then [(attempted_posts, out)]
    else (attempted_posts, out) :: mainLoop env out.db attempted_posts rest

/-- The records appended during a trace, in order (the `log_to_DB` calls). -/
def appends (tr : List Effect) : List PostRecord :=
  tr.filterMap (fun e => match e with | .logAppend r => some r | _ => none)

/-- Gate bundle: the candidate passes every metadata and content gate of
`process_photos` against store `db` (extension, prior identifier, size,
description denylist, perceptual hash, recognized text), so evaluation reaches
the publish attempt. -/
def passesContentGates (env : Env) (db : Database) (p : Photo) : Prop :=
  env.acceptableExtension p.extension = true ∧
  p.id ∉ db.posts.map (fun r => r.id) ∧
  get_file_size env p.large < 4000 ∧
  descHasBadWord db.badWords (splitOnSpace (replaceHyphens p.description)) = false ∧
  env.hashOf p.large2x ∉ db.posts.map (fun r => r.hash) ∧
  there_are_badwords (env.ocrOf p.large2x) db.badWords = false

/-- Gate bundle used by scenario theorems: every gate passes but the publish
response carries no post identifier. -/
def cleanFailing (env : Env) (db : Database) (p : Photo) : Prop :=
  passesContentGates env db p ∧ env.postIdOf (env.publishResponse p) = none

instance decPassesContentGates (env : Env) (db : Database) (p : Photo) :
    Decidable (passesContentGates env db p) := by
  unfold passesContentGates
  infer_instance

instance decCleanFailing (env : Env) (db : Database) (p : Photo) :
    Decidable (cleanFailing env db p) := by
  unfold cleanFailing
  infer_instance

/-! ### Concrete fixtures used by witnesses and counterexamples -/

/-- Concrete candidate used in witnesses: every string attribute is derived
from the identifier. -/
def samplePhoto (i : String) : Photo :=
  { id := i, description := "d", extension := "jpg", large := i, large2x := i,
    original := i, photographer := "ph", url := "u" }

/-- Concrete empty store with an open connection. -/
def sampleDB : Database := { badWords := [], posts := [], connOpen := true }

/-- Concrete environment in which every gate passes and every publish attempt
fails (no identifier in the response). -/
def envFail : Env :=
  { sizeOfBytes := fun _ => 0
    acceptableExtension := fun _ => true
    hashOf := fun s => s
    ocrOf := fun _ => ""
    publishResponse := fun _ => "r"
    postIdOf := fun _ => none
    now := "t" }

/-- Concrete environment in which every gate passes and every publish attempt
succeeds with post identifier `99`. -/
def envOk : Env := { envFail with postIdOf := fun _ => some "99" }

/-- Concrete environment in which no extension is acceptable. -/
def envBadExt : Env := { envFail with acceptableExtension := fun _ => false }

/-- Concrete environment whose byte-size estimates all exceed the ceiling. -/
def envBigSize : Env := { envFail with sizeOfBytes := fun _ => 5000000 }

/-- Concrete previously logged record with identifier and hash `z`. -/
def sampleRecord : PostRecord :=
  { timestamp := "t0", rawResponse := "r0", description := "d0", photographer := "ph",
    id := "z", url := "u", large2x := "z", original := "z", size := 1, hash := "z" }

/-- Concrete store already holding `sampleRecord`, with an open connection. -/
def sampleDB1 : Database := { badWords := [], posts := [sampleRecord], connOpen := true }

/-- First page of the two-page failing run used against the driver: four
candidates that all reach the publish attempt and fail. -/
def pageA : List Photo :=
  [samplePhoto "a", samplePhoto "b", samplePhoto "c", samplePhoto "d"]

/-- Second page of the two-page failing run: two more candidates that reach
the publish attempt and fail. -/
def pageB : List Photo := [samplePhoto "e", samplePhoto "f"]

/-- Concrete candidate with a fresh identifier `w` whose `large2x` reference
hashes to the already-logged hash `z` of `sampleRecord`. -/
def dupHashPhoto : Photo :=
  { id := "w", description := "d", extension := "jpg", large := "w", large2x := "z",
    original := "w", photographer := "ph", url := "u" }

/-! ### Store-read lemmas -/

/-- On an open connection, the denylist read returns the denylist. -/
lemma valuesOf_badWords (db : Database) (h : db.connOpen = true) :
    db.valuesOf "Bad_Words" "Bad_Words" = some db.badWords := by
  simp [Database.valuesOf, h]

/-- On an open connection, the identifier read returns the logged identifiers. -/
lemma valuesOf_ids (db : Database) (h : db.connOpen = true) :
    db.valuesOf "Nature_Bot_Logged_FB_Posts" "ID" = some (db.posts.map (fun r => r.id)) := by
  simp [Database.valuesOf, h]

/-- On an open connection, the hash read returns the logged hashes. -/
lemma valuesOf_hashes (db : Database) (h : db.connOpen = true) :
    db.valuesOf "Nature_Bot_Logged_FB_Posts" "Image_Hash" =
      some (db.posts.map (fun r => r.hash)) := by
  simp [Database.valuesOf, h]

/-- On a closed connection, every store read fails. -/
lemma valuesOf_closed (db : Database) (h : db.connOpen = false) (t c : String) :
    db.valuesOf t c = none := by
  simp [Database.valuesOf, h]

/-! ### Per-gate stepping lemmas for one loop iteration -/

/-- Failsafe gate (line 52): with the counter at or past the ceiling, the
iteration returns `True` right after the line 43-46 prep work. -/
lemma step_failsafe (env : Env) (db : Database) (c : Nat) (p : Photo)
    (hopen : db.connOpen = true) (hc : 5 ≤ c) :
    processStep env db c p =
      (.halt .failsafe db,
       [.sizeLookup p.large, .storeRead "Bad_Words" "Bad_Words"]) := by
  simp [processStep, valuesOf_badWords db hopen, hc]

/-- On a closed connection, the first store read of the iteration (the
denylist read at line 46) fails, and the error aborts the call before any gate
runs. -/
lemma step_closed (env : Env) (db : Database) (c : Nat) (p : Photo)
    (hclosed : db.connOpen = false) :
    processStep env db c p =
      (.halt .storeError db,
       [.sizeLookup p.large, .storeRead "Bad_Words" "Bad_Words"]) := by
  simp [processStep, valuesOf_closed db hclosed]

/-- Extension gate (line 56): a disallowed format tag is rejected, with the
size lookup and denylist read of lines 45-46 already performed. -/
lemma step_badExtension (env : Env) (db : Database) (c : Nat) (p : Photo)
    (hopen : db.connOpen = true) (hc : c < 5)
    (hext : env.acceptableExtension p.extension = false) :
    processStep env db c p =
      (.next c, [.sizeLookup p.large, .storeRead "Bad_Words" "Bad_Words"]) := by
  simp [processStep, valuesOf_badWords db hopen, Nat.not_le.mpr hc, hext]

/-- Prior-identifier gate (line 60): an already-logged identifier is rejected
before any download. -/
lemma step_loggedId (env : Env) (db : Database) (c : Nat) (p : Photo)
    (hopen : db.connOpen = true) (hc : c < 5)
    (hext : env.acceptableExtension p.extension = true)
    (hid : p.id ∈ db.posts.map (fun r => r.id)) :
    processStep env db c p =
      (.next c, [.sizeLookup p.large, .storeRead "Bad_Words" "Bad_Words",
                 .storeRead "Nature_Bot_Logged_FB_Posts" "ID"]) := by
  simp [processStep, valuesOf_badWords db hopen, valuesOf_ids db hopen,
    Nat.not_le.mpr hc, hext, hid]

/-- Size gate (line 64): an oversize candidate is rejected before any
download. -/
lemma step_sizeReject (env : Env) (db : Database) (c : Nat) (p : Photo)
    (hopen : db.connOpen = true) (hc : c < 5)
    (hext : env.acceptableExtension p.extension = true)
    (hid : p.id ∉ db.posts.map (fun r => r.id))
    (hsize : 4000 ≤ get_file_size env p.large) :
    processStep env db c p =
      (.next c, [.sizeLookup p.large, .storeRead "Bad_Words" "Bad_Words",
                 .storeRead "Nature_Bot_Logged_FB_Posts" "ID"]) := by
  simp [processStep, valuesOf_badWords db hopen, valuesOf_ids db hopen,
    Nat.not_le.mpr hc, hext, hid, hsize]

/-- Description-denylist gate (line 67): a description containing a denylist
word is rejected before any download. -/
lemma step_descReject (env : Env) (db : Database) (c : Nat) (p : Photo)
    (hopen : db.connOpen = true) (hc : c < 5)
    (hext : env.acceptableExtension p.extension = true)
    (hid : p.id ∉ db.posts.map (fun r => r.id))
    (hsize : get_file_size env p.large < 4000)
    (hdesc : descHasBadWord db.badWords (splitOnSpace (replaceHyphens p.description)) = true) :
    processStep env db c p =
      (.next c, [.sizeLookup p.large, .storeRead "Bad_Words" "Bad_Words",
                 .storeRead "Nature_Bot_Logged_FB_Posts" "ID"]) := by
  simp [processStep, valuesOf_badWords db hopen, valuesOf_ids db hopen,
    Nat.not_le.mpr hc, hext, hid, Nat.not_le.mpr hsize, hdesc]

/-- Perceptual-duplicate gate (line 77): an already-logged hash is rejected
after the download and hash but before text recognition and publish. -/
lemma step_hashReject (env : Env) (db : Database) (c : Nat) (p : Photo)
    (hopen : db.connOpen = true) (hc : c < 5)
    (hext : env.acceptableExtension p.extension = true)
    (hid : p.id ∉ db.posts.map (fun r => r.id))
    (hsize : get_file_size env p.large < 4000)
    (hdesc : descHasBadWord db.badWords (splitOnSpace (replaceHyphens p.description)) = false)
    (hhash : env.hashOf p.large2x ∈ db.posts.map (fun r => r.hash)) :
    processStep env db c p =
      (.next c, [.sizeLookup p.large, .storeRead "Bad_Words" "Bad_Words",
                 .storeRead "Nature_Bot_Logged_FB_Posts" "ID",
                 .download p.large2x "image.jpg", .hashImage "image.jpg",
                 .storeRead "Nature_Bot_Logged_FB_Posts" "Image_Hash"]) := by
  simp [processStep, valuesOf_badWords db hopen, valuesOf_ids db hopen,
    valuesOf_hashes db hopen, Nat.not_le.mpr hc, hext, hid, Nat.not_le.mpr hsize,
    hdesc, hhash]

/-- Recognized-text gate (lines 80-82): denylist text recognized in the image
rejects after download but before publish. -/
lemma step_ocrReject (env : Env) (db : Database) (c : Nat) (p : Photo)
    (hopen : db.connOpen = true) (hc : c < 5)
    (hext : env.acceptableExtension p.extension = true)
    (hid : p.id ∉ db.posts.map (fun r => r.id))
    (hsize : get_file_size env p.large < 4000)
    (hdesc : descHasBadWord db.badWords (splitOnSpace (replaceHyphens p.description)) = false)
    (hhash : env.hashOf p.large2x ∉ db.posts.map (fun r => r.hash))
    (hocr : there_are_badwords (env.ocrOf p.large2x) db.badWords = true) :
    processStep env db c p =
      (.next c, [.sizeLookup p.large, .storeRead "Bad_Words" "Bad_Words",
                 .storeRead "Nature_Bot_Logged_FB_Posts" "ID",
                 .download p.large2x "image.jpg", .hashImage "image.jpg",
                 .storeRead "Nature_Bot_Logged_FB_Posts" "Image_Hash",
                 .ocr "image.jpg"]) := by
  simp [processStep, valuesOf_badWords db hopen, valuesOf_ids db hopen,
    valuesOf_hashes db hopen, Nat.not_le.mpr hc, hext, hid, Nat.not_le.mpr hsize,
    hdesc, hhash, hocr]

/-- Publish failure (lines 89-91): a response without a post identifier
increments `attempted_posts` by one and falls through to the next candidate,
with no caption amendment, no append and no close. -/
lemma step_publishFail (env : Env) (db : Database) (c : Nat) (p : Photo)
    (hopen : db.connOpen = true) (hc : c < 5)
    (hext : env.acceptableExtension p.extension = true)
    (hid : p.id ∉ db.posts.map (fun r => r.id))
    (hsize : get_file_size env p.large < 4000)
    (hdesc : descHasBadWord db.badWords (splitOnSpace (replaceHyphens p.description)) = false)
    (hhash : env.hashOf p.large2x ∉ db.posts.map (fun r => r.hash))
    (hocr : there_are_badwords (env.ocrOf p.large2x) db.badWords = false)
    (hpub : env.postIdOf (env.publishResponse p) = none) :
    processStep env db c p =
      (.next (c + 1),
       [.sizeLookup p.large, .storeRead "Bad_Words" "Bad_Words",
        .storeRead "Nature_Bot_Logged_FB_Posts" "ID",
        .download p.large2x "image.jpg", .hashImage "image.jpg",
        .storeRead "Nature_Bot_Logged_FB_Posts" "Image_Hash",
        .ocr "image.jpg", .publish p.id]) := by
  simp [processStep, valuesOf_badWords db hopen, valuesOf_ids db hopen,
    valuesOf_hashes db hopen, Nat.not_le.mpr hc, hext, hid, Nat.not_le.mpr hsize,
    hdesc, hhash, hocr, hpub]

/-- Successful publish (lines 93-112): the record built from the candidate is
appended, the caption amended, the connection closed, and the truthy record
returned. -/
lemma step_publishSuccess (env : Env) (db : Database) (c : Nat) (p : Photo)
    (pid : String)
    (hopen : db.connOpen = true) (hc : c < 5)
    (hext : env.acceptableExtension p.extension = true)
    (hid : p.id ∉ db.posts.map (fun r => r.id))
    (hsize : get_file_size env p.large < 4000)
    (hdesc : descHasBadWord db.badWords (splitOnSpace (replaceHyphens p.description)) = false)
    (hhash : env.hashOf p.large2x ∉ db.posts.map (fun r => r.hash))
    (hocr : there_are_badwords (env.ocrOf p.large2x) db.badWords = false)
    (hpub : env.postIdOf (env.publishResponse p) = some pid) :
    processStep env db c p =
      (.halt (.posted (mkRecord env p)) ((db.log_to_DB (mkRecord env p)).closeConn),
       [.sizeLookup p.large, .storeRead "Bad_Words" "Bad_Words",
        .storeRead "Nature_Bot_Logged_FB_Posts" "ID",
        .download p.large2x "image.jpg", .hashImage "image.jpg",
        .storeRead "Nature_Bot_Logged_FB_Posts" "Image_Hash",
        .ocr "image.jpg", .publish p.id,
        .editCaption pid (replaceHyphens p.description) p.url,
        .logAppend (mkRecord env p), .closeStore]) := by
  simp [processStep, valuesOf_badWords db hopen, valuesOf_ids db hopen,
    valuesOf_hashes db hopen, Nat.not_le.mpr hc, hext, hid, Nat.not_le.mpr hsize,
    hdesc, hhash, hocr, hpub]

/-! ### Shape lemmas -/

/-- Exhaustive shape of one loop iteration on an open store: either the
candidate is rejected (`continue`, store untouched, nothing appended), or the
failsafe fires returning `True` with the store untouched, or the candidate is
published, in which case the appended record is `mkRecord env p`, its
identifier and hash were not logged before, exactly that record is appended,
and the connection is closed. -/
lemma processStep_shape (env : Env) (db : Database) (c : Nat) (p : Photo)
    (hopen : db.connOpen = true) :
    (∃ c2 tr, processStep env db c p = (.next c2, tr) ∧ appends tr = []) ∨
    (processStep env db c p =
      (.halt .failsafe db,
       [.sizeLookup p.large, .storeRead "Bad_Words" "Bad_Words"])) ∨
    (∃ tr, processStep env db c p =
        (.halt (.posted (mkRecord env p)) ((db.log_to_DB (mkRecord env p)).closeConn), tr) ∧
      appends tr = [mkRecord env p] ∧ Effect.closeStore ∈ tr ∧
      (mkRecord env p).id ∉ db.posts.map (fun r => r.id) ∧
      (mkRecord env p).hash ∉ db.posts.map (fun r => r.hash)) := by
  by_cases hc : 5 ≤ c
  · exact Or.inr (Or.inl (step_failsafe env db c p hopen hc))
  replace hc : c < 5 := Nat.not_le.mp hc
  by_cases hext : env.acceptableExtension p.extension = true
  on_goal 2 =>
    replace hext : env.acceptableExtension p.extension = false := by
      revert hext
      cases env.acceptableExtension p.extension <;> simp
    exact Or.inl ⟨_, _, step_badExtension env db c p hopen hc hext, by simp [appends]⟩
  by_cases hid : p.id ∈ db.posts.map (fun r => r.id)
  · exact Or.inl ⟨_, _, step_loggedId env db c p hopen hc hext hid, by simp [appends]⟩
  by_cases hsize : 4000 ≤ get_file_size env p.large
  · exact Or.inl ⟨_, _, step_sizeReject env db c p hopen hc hext hid hsize, by simp [appends]⟩
  replace hsize : get_file_size env p.large < 4000 := Nat.not_le.mp hsize
  by_cases hdesc : descHasBadWord db.badWords (splitOnSpace (replaceHyphens p.description)) = true
  · exact Or.inl ⟨_, _, step_descReject env db c p hopen hc hext hid hsize hdesc, by simp [appends]⟩
  replace hdesc : descHasBadWord db.badWords (splitOnSpace (replaceHyphens p.description)) = false := by
    revert hdesc
    cases descHasBadWord db.badWords (splitOnSpace (replaceHyphens p.description)) <;> simp
  by_cases hhash : env.hashOf p.large2x ∈ db.posts.map (fun r => r.hash)
  · exact Or.inl ⟨_, _, step_hashReject env db c p hopen hc hext hid hsize hdesc hhash,
      by simp [appends]⟩
  by_cases hocr : there_are_badwords (env.ocrOf p.large2x) db.badWords = true
  · exact Or.inl ⟨_, _, step_ocrReject env db c p hopen hc hext hid hsize hdesc hhash hocr,
      by simp [appends]⟩
  replace hocr : there_are_badwords (env.ocrOf p.large2x) db.badWords = false := by
    revert hocr
    cases there_are_badwords (env.ocrOf p.large2x) db.badWords <;> simp
  cases hpub : env.postIdOf (env.publishResponse p) with
  | none =>
    exact Or.inl ⟨_, _, step_publishFail env db c p hopen hc hext hid hsize hdesc hhash hocr hpub,
      by simp [appends]⟩
  | some pid =>
    refine Or.inr (Or.inr ⟨_,
      step_publishSuccess env db c p pid hopen hc hext hid hsize hdesc hhash hocr hpub, ?_, ?_, ?_, ?_⟩)
    · simp [appends]
    · simp
    · simpa [mkRecord] using hid
    · simpa [mkRecord] using hhash

/-- Unfolding of `process_photos` on a candidate the iteration falls through
(`continue`). -/
lemma process_photos_cons_next (env : Env) (p : Photo) (rest : List Photo)
    (db : Database) (c c2 : Nat) (tr : List Effect)
    (h : processStep env db c p = (.next c2, tr)) :
    process_photos env (p :: rest) db c =
      ⟨(process_photos env rest db c2).result, (process_photos env rest db c2).db,
       (process_photos env rest db c2).counter,
       tr ++ (process_photos env rest db c2).trace⟩ := by
  simp [process_photos, h]

/-- Unfolding of `process_photos` on a candidate the iteration returns from. -/
lemma process_photos_cons_halt (env : Env) (p : Photo) (rest : List Photo)
    (db : Database) (c : Nat) (r : ProcessResult) (db2 : Database) (tr : List Effect)
    (h : processStep env db c p = (.halt r db2, tr)) :
    process_photos env (p :: rest) db c = ⟨r, db2, c, tr⟩ := by
  simp [process_photos, h]

/-- Appends of a concatenated trace. -/
lemma appends_append (a b : List Effect) : appends (a ++ b) = appends a ++ appends b :=
  List.filterMap_append a b _

/-- Exhaustive shape of one whole `process_photos` call on an open store:
either the call posts nothing — result `exhausted` or `failsafe`, store
returned untouched, nothing appended — or it posts exactly once: the result is
`posted (mkRecord env p)` for some candidate `p` of the page whose identifier
and hash were not logged at entry, the store gains exactly that one record and
its connection is closed. -/
lemma process_photos_shape (env : Env) (photos : List Photo) (db : Database) (c : Nat)
    (hopen : db.connOpen = true) :
    (((process_photos env photos db c).result = .exhausted ∨
      (process_photos env photos db c).result = .failsafe) ∧
     (process_photos env photos db c).db = db ∧
     appends (process_photos env photos db c).trace = []) ∨
    (∃ p, p ∈ photos ∧
      (process_photos env photos db c).result = .posted (mkRecord env p) ∧
      (process_photos env photos db c).db = (db.log_to_DB (mkRecord env p)).closeConn ∧
      (mkRecord env p).id ∉ db.posts.map (fun r => r.id) ∧
      (mkRecord env p).hash ∉ db.posts.map (fun r => r.hash) ∧
      appends (process_photos env photos db c).trace = [mkRecord env p] ∧
      Effect.closeStore ∈ (process_photos env photos db c).trace) := by
  induction photos generalizing c with
  | nil => exact Or.inl ⟨Or.inl rfl, rfl, rfl⟩
  | cons p rest ih =>
    rcases processStep_shape env db c p hopen with ⟨c2, tr, hstep, happ⟩ | hstep |
      ⟨tr, hstep, happ, hclose, hid, hhash⟩
    · rw [process_photos_cons_next env p rest db c c2 tr hstep]
      rcases ih c2 with ⟨hres, hdb, htr⟩ | ⟨q, hq, hres, hdb, hqid, hqhash, htr, hcs⟩
      · exact Or.inl ⟨hres, hdb, by rw [appends_append, happ, htr]; rfl⟩
      · refine Or.inr ⟨q, List.mem_cons_of_mem p hq, hres, hdb, hqid, hqhash, ?_, ?_⟩
        · rw [appends_append, happ, htr]
          rfl
        · exact List.mem_append_right tr hcs
    · rw [process_photos_cons_halt env p rest db c _ _ _ hstep]
      exact Or.inl ⟨Or.inr rfl, rfl, rfl⟩
    · rw [process_photos_cons_halt env p rest db c _ _ _ hstep]
      exact Or.inr ⟨p, List.mem_cons_self p rest, rfl, rfl, hid, hhash, happ, hclose⟩

/-! ### Claim theorems -/

/-- C9: on an empty page of candidates, `process_photos` returns the
exhausted-page outcome (`None`, falsy, driving the next page fetch) with the
store and counter untouched, for every value of the attempt counter — in
particular also at or above the failsafe ceiling — and never the failsafe
outcome. -/
theorem c9_empty_page_exhausted (env : Env) (db : Database) (c : Nat) :
    process_photos env [] db c = ⟨.exhausted, db, c, []⟩ ∧
    (process_photos env [] db c).result ≠ .failsafe :=
  ⟨rfl, by simp [process_photos]⟩

/-- C3 counterexample: with the counter at the failsafe ceiling and a one-
candidate page, `process_photos` does return `{Failsafe}`, but only after
performing per-candidate work for the first candidate — a byte-size lookup
(an ImageAnalysis call) and a denylist store read — refuting the claim that
no size lookup and no store read happen before the failsafe return. -/
theorem c3_counterexample :
    (process_photos envFail [samplePhoto "a"] sampleDB 5).result = .failsafe ∧
    Effect.sizeLookup "a" ∈ (process_photos envFail [samplePhoto "a"] sampleDB 5).trace ∧
    Effect.storeRead "Bad_Words" "Bad_Words" ∈
      (process_photos envFail [samplePhoto "a"] sampleDB 5).trace := by
  decide

/-- C3 (amended): for every nonempty page and every counter at or above the
failsafe ceiling of 5, `process_photos` returns `{Failsafe}` with the store
untouched, after exactly one size lookup and one denylist store read for the
first candidate; no download, publish or append happens for any candidate and
no further candidate is evaluated. -/
theorem c3_failsafe_gate (env : Env) (db : Database) (c : Nat) (p : Photo)
    (rest : List Photo) (hopen : db.connOpen = true) (hc : 5 ≤ c) :
    process_photos env (p :: rest) db c =
      ⟨.failsafe, db, c,
       [.sizeLookup p.large, .storeRead "Bad_Words" "Bad_Words"]⟩ ∧
    (∀ ref tgt, Effect.download ref tgt ∉ (process_photos env (p :: rest) db c).trace) ∧
    (∀ i, Effect.publish i ∉ (process_photos env (p :: rest) db c).trace) ∧
    (∀ r, Effect.logAppend r ∉ (process_photos env (p :: rest) db c).trace) := by
  have h := process_photos_cons_halt env p rest db c _ _ _ (step_failsafe env db c p hopen hc)
  rw [h]
  refine ⟨rfl, ?_, ?_, ?_⟩ <;> simp

/-- C3 witness: the amended failsafe-gate theorem applied to the concrete
one-candidate page at counter 5. -/
theorem c3_failsafe_gate_witness :
    process_photos envFail [samplePhoto "a"] sampleDB 5 =
      ⟨.failsafe, sampleDB, 5,
       [.sizeLookup "a", .storeRead "Bad_Words" "Bad_Words"]⟩ :=
  (c3_failsafe_gate envFail sampleDB 5 (samplePhoto "a") [] (by decide) (by decide)).1

/-- C8 counterexample: a candidate with a disallowed extension is rejected,
but a byte-size lookup (an ImageAnalysis call) is still performed for it,
refuting the claim that no ImageAnalysis call happens for such a candidate. -/
theorem c8_counterexample :
    (process_photos envBadExt [samplePhoto "a"] sampleDB 0).result = .exhausted ∧
    Effect.sizeLookup "a" ∈ (process_photos envBadExt [samplePhoto "a"] sampleDB 0).trace := by
  decide

/-- C8 (amended): a candidate with a disallowed extension is rejected with no
download, no hashing, no text recognition and no publish call, but only after
the unconditional byte-size lookup (and denylist store read) of lines 45-46
has been performed for it. -/
theorem c8_bad_extension_frame (env : Env) (db : Database) (c : Nat) (p : Photo)
    (hopen : db.connOpen = true) (hc : c < 5)
    (hext : env.acceptableExtension p.extension = false) :
    processStep env db c p =
      (.next c, [.sizeLookup p.large, .storeRead "Bad_Words" "Bad_Words"]) ∧
    (∀ ref tgt, Effect.download ref tgt ∉ (processStep env db c p).2) ∧
    (∀ tgt, Effect.hashImage tgt ∉ (processStep env db c p).2) ∧
    (∀ tgt, Effect.ocr tgt ∉ (processStep env db c p).2) ∧
    (∀ i, Effect.publish i ∉ (processStep env db c p).2) ∧
    Effect.sizeLookup p.large ∈ (processStep env db c p).2 := by
  have h := step_badExtension env db c p hopen hc hext
  rw [h]
  refine ⟨rfl, ?_, ?_, ?_, ?_, ?_⟩ <;> simp

/-- C8 witness: the amended extension-gate theorem applied to the concrete
candidate in the environment allowing no extension. -/
theorem c8_bad_extension_frame_witness :
    processStep envBadExt sampleDB 0 (samplePhoto "a") =
      (.next 0, [.sizeLookup "a", .storeRead "Bad_Words" "Bad_Words"]) :=
  (c8_bad_extension_frame envBadExt sampleDB 0 (samplePhoto "a")
    (by decide) (by decide) (by decide)).1

/-- C4: the size gate.  First, the source's `photo_file_size >= 4000` test is
exactly the spec's 4,000,000-byte strict ceiling on the byte-size estimate.
Second, a candidate passing the earlier gates whose estimate is at least
4,000,000 bytes is rejected with no download.  Third, a candidate whose
estimate is strictly below 4,000,000 bytes passes the gate: evaluation reaches
the download. -/
theorem c4_size_gate :
    (∀ (env : Env) (ref : String),
      4000 ≤ get_file_size env ref ↔ 4000000 ≤ env.sizeOfBytes ref) ∧
    (∀ (env : Env) (db : Database) (c : Nat) (p : Photo), db.connOpen = true → c < 5 →
      env.acceptableExtension p.extension = true →
      p.id ∉ db.posts.map (fun r => r.id) →
      4000000 ≤ env.sizeOfBytes p.large →
      processStep env db c p =
        (.next c, [.sizeLookup p.large, .storeRead "Bad_Words" "Bad_Words",
                   .storeRead "Nature_Bot_Logged_FB_Posts" "ID"]) ∧
      (∀ ref tgt, Effect.download ref tgt ∉ (processStep env db c p).2)) ∧
    (∀ (env : Env) (db : Database) (c : Nat) (p : Photo), db.connOpen = true → c < 5 →
      env.acceptableExtension p.extension = true →
      p.id ∉ db.posts.map (fun r => r.id) →
      env.sizeOfBytes p.large < 4000000 →
      descHasBadWord db.badWords (splitOnSpace (replaceHyphens p.description)) = false →
      Effect.download p.large2x "image.jpg" ∈ (processStep env db c p).2) := by
  refine ⟨?_, ?_, ?_⟩
  · intro env ref
    unfold get_file_size
    omega
  · intro env db c p hopen hc hext hid hsize
    have hs : 4000 ≤ get_file_size env p.large := by unfold get_file_size; omega
    rw [step_sizeReject env db c p hopen hc hext hid hs]
    exact ⟨rfl, by simp⟩
  · intro env db c p hopen hc hext hid hsize hdesc
    have hs : get_file_size env p.large < 4000 := by unfold get_file_size; omega
    by_cases hhash : env.hashOf p.large2x ∈ db.posts.map (fun r => r.hash)
    · rw [step_hashReject env db c p hopen hc hext hid hs hdesc hhash]
      simp
    by_cases hocr : there_are_badwords (env.ocrOf p.large2x) db.badWords = true
    · rw [step_ocrReject env db c p hopen hc hext hid hs hdesc hhash hocr]
      simp
    replace hocr : there_are_badwords (env.ocrOf p.large2x) db.badWords = false := by
      revert hocr
      cases there_are_badwords (env.ocrOf p.large2x) db.badWords <;> simp
    cases hpub : env.postIdOf (env.publishResponse p) with
    | none =>
      rw [step_publishFail env db c p hopen hc hext hid hs hdesc hhash hocr hpub]
      simp
    | some pid =>
      rw [step_publishSuccess env db c p pid hopen hc hext hid hs hdesc hhash hocr hpub]
      simp

/-- C4 witness: the size-gate theorem applied to a concrete oversize
environment (second conjunct) and a concrete small-size environment (third
conjunct). -/
theorem c4_size_gate_witness :
    (4000 ≤ get_file_size envBigSize "a" ↔ 4000000 ≤ envBigSize.sizeOfBytes "a") ∧
    processStep envBigSize sampleDB 0 (samplePhoto "a") =
      (.next 0, [.sizeLookup "a", .storeRead "Bad_Words" "Bad_Words",
                 .storeRead "Nature_Bot_Logged_FB_Posts" "ID"]) ∧
    Effect.download "a" "image.jpg" ∈ (processStep envFail sampleDB 0 (samplePhoto "a")).2 :=
  ⟨c4_size_gate.1 envBigSize "a",
   (c4_size_gate.2.1 envBigSize sampleDB 0 (samplePhoto "a") (by decide) (by decide)
      (by decide) (by decide) (by decide)).1,
   c4_size_gate.2.2 envFail sampleDB 0 (samplePhoto "a") (by decide) (by decide)
      (by decide) (by decide) (by decide) (by decide)⟩

/-- C5 counterexample: a page of exactly 5 candidates that all pass every gate
and all yield a publish response with no identifier makes `process_photos`
(started at counter 0) return the exhausted-page outcome `None`, not
`{Failsafe}` — the failsafe check only fires on a sixth iteration. -/
theorem c5_counterexample :
    (process_photos envFail
        [samplePhoto "a", samplePhoto "b", samplePhoto "c", samplePhoto "d", samplePhoto "e"]
        sampleDB 0).result = .exhausted ∧
    (process_photos envFail
        [samplePhoto "a", samplePhoto "b", samplePhoto "c", samplePhoto "d", samplePhoto "e"]
        sampleDB 0).result ≠ .failsafe ∧
    appends (process_photos envFail
        [samplePhoto "a", samplePhoto "b", samplePhoto "c", samplePhoto "d", samplePhoto "e"]
        sampleDB 0).trace = [] := by
  decide

/-- C5 (amended): for a page of exactly 5 candidates that each pass all
metadata and content gates and each yield a publish response with no post
identifier, `process_photos` started at counter 0 returns the exhausted-page
outcome with the store untouched, no record appended, and the call-local
counter at 5; `{Failsafe}` would require a further candidate to be evaluated. -/
theorem c5_five_publish_failures (env : Env) (db : Database) (p1 p2 p3 p4 p5 : Photo)
    (hopen : db.connOpen = true)
    (h1 : cleanFailing env db p1) (h2 : cleanFailing env db p2)
    (h3 : cleanFailing env db p3) (h4 : cleanFailing env db p4)
    (h5 : cleanFailing env db p5) :
    (process_photos env [p1, p2, p3, p4, p5] db 0).result = .exhausted ∧
    (process_photos env [p1, p2, p3, p4, p5] db 0).db = db ∧
    (process_photos env [p1, p2, p3, p4, p5] db 0).counter = 5 ∧
    appends (process_photos env [p1, p2, p3, p4, p5] db 0).trace = [] := by
  obtain ⟨⟨e1, i1, s1, d1, hh1, o1⟩, pu1⟩ := h1
  obtain ⟨⟨e2, i2, s2, d2, hh2, o2⟩, pu2⟩ := h2
  obtain ⟨⟨e3, i3, s3, d3, hh3, o3⟩, pu3⟩ := h3
  obtain ⟨⟨e4, i4, s4, d4, hh4, o4⟩, pu4⟩ := h4
  obtain ⟨⟨e5, i5, s5, d5, hh5, o5⟩, pu5⟩ := h5
  have t1 := step_publishFail env db 0 p1 hopen (by omega) e1 i1 s1 d1 hh1 o1 pu1
  have t2 := step_publishFail env db (0 + 1) p2 hopen (by omega) e2 i2 s2 d2 hh2 o2 pu2
  have t3 := step_publishFail env db (0 + 1 + 1) p3 hopen (by omega) e3 i3 s3 d3 hh3 o3 pu3
  have t4 := step_publishFail env db (0 + 1 + 1 + 1) p4 hopen (by omega) e4 i4 s4 d4 hh4 o4 pu4
  have t5 := step_publishFail env db (0 + 1 + 1 + 1 + 1) p5 hopen (by omega) e5 i5 s5 d5 hh5 o5 pu5
  rw [process_photos_cons_next env p1 _ db 0 _ _ t1,
      process_photos_cons_next env p2 _ db (0 + 1) _ _ t2,
      process_photos_cons_next env p3 _ db (0 + 1 + 1) _ _ t3,
      process_photos_cons_next env p4 _ db (0 + 1 + 1 + 1) _ _ t4,
      process_photos_cons_next env p5 _ db (0 + 1 + 1 + 1 + 1) _ _ t5]
  refine ⟨by simp [process_photos], by simp [process_photos], by simp [process_photos], ?_⟩
  simp [process_photos, appends]

/-- C5 witness: the amended five-failure theorem applied to the concrete
all-passing failing environment. -/
theorem c5_five_publish_failures_witness :
    (process_photos envFail
        [samplePhoto "a", samplePhoto "b", samplePhoto "c", samplePhoto "d", samplePhoto "e"]
        sampleDB 0).result = .exhausted :=
  (c5_five_publish_failures envFail sampleDB (samplePhoto "a") (samplePhoto "b")
    (samplePhoto "c") (samplePhoto "d") (samplePhoto "e") (by decide)
    (by decide) (by decide) (by decide) (by decide) (by decide)).1

/-- C6: publish-failure handling.  For a candidate that passes every gate but
whose publish response lacks a post identifier, the iteration increments the
counter by exactly one and falls through to the next candidate with nothing
appended and no caption amendment; and for a candidate that passes every gate,
the iteration commits a posted record exactly when a post identifier is found
in the response. -/
theorem c6_publish_failure_handling :
    (∀ (env : Env) (db : Database) (c : Nat) (p : Photo), db.connOpen = true → c < 5 →
      passesContentGates env db p →
      env.postIdOf (env.publishResponse p) = none →
      (processStep env db c p).1 = .next (c + 1) ∧
      (∀ r, Effect.logAppend r ∉ (processStep env db c p).2) ∧
      (∀ i d u, Effect.editCaption i d u ∉ (processStep env db c p).2)) ∧
    (∀ (env : Env) (db : Database) (c : Nat) (p : Photo), db.connOpen = true → c < 5 →
      passesContentGates env db p →
      ((∃ rec db2 tr, processStep env db c p = (.halt (.posted rec) db2, tr)) ↔
        (env.postIdOf (env.publishResponse p)).isSome = true)) := by
  constructor
  · intro env db c p hopen hc hg hpub
    obtain ⟨he, hi, hs, hd, hh, ho⟩ := hg
    rw [step_publishFail env db c p hopen hc he hi hs hd hh ho hpub]
    refine ⟨rfl, ?_, ?_⟩ <;> simp
  · intro env db c p hopen hc hg
    obtain ⟨he, hi, hs, hd, hh, ho⟩ := hg
    cases hpub : env.postIdOf (env.publishResponse p) with
    | none =>
      rw [step_publishFail env db c p hopen hc he hi hs hd hh ho hpub]
      simp
    | some pid =>
      rw [step_publishSuccess env db c p pid hopen hc he hi hs hd hh ho hpub]
      simp

/-- C6 witness: the publish-failure theorem applied to the concrete failing
environment, and the success equivalence applied to the concrete succeeding
environment. -/
theorem c6_publish_failure_handling_witness :
    (processStep envFail sampleDB 0 (samplePhoto "a")).1 = .next (0 + 1) ∧
    ((∃ rec db2 tr,
        processStep envOk sampleDB 0 (samplePhoto "a") = (.halt (.posted rec) db2, tr)) ↔
      (envOk.postIdOf (envOk.publishResponse (samplePhoto "a"))).isSome = true) :=
  ⟨(c6_publish_failure_handling.1 envFail sampleDB 0 (samplePhoto "a") (by decide) (by decide)
      (by decide) (by decide)).1,
   c6_publish_failure_handling.2 envOk sampleDB 0 (samplePhoto "a") (by decide) (by decide)
      (by decide)⟩

/-- C1: uniqueness invariant.  First, on a store whose logged identifiers and
logged hashes are each duplicate-free, any `process_photos` call returns a
store whose identifiers and hashes are still each duplicate-free (every append
preserves both uniqueness invariants).  Second, a candidate that passes the
earlier gates but whose perceptual hash is already logged is rejected after
the download and before any publish attempt, with nothing appended. -/
theorem c1_uniqueness_invariant (env : Env) (photos : List Photo) (db : Database) (c : Nat)
    (hopen : db.connOpen = true)
    (hids : (db.posts.map (fun r => r.id)).Nodup)
    (hhashes : (db.posts.map (fun r => r.hash)).Nodup) :
    (((process_photos env photos db c).db.posts.map (fun r => r.id)).Nodup ∧
     ((process_photos env photos db c).db.posts.map (fun r => r.hash)).Nodup) ∧
    (∀ (p : Photo) (c2 : Nat), c2 < 5 →
      env.acceptableExtension p.extension = true →
      p.id ∉ db.posts.map (fun r => r.id) →
      get_file_size env p.large < 4000 →
      descHasBadWord db.badWords (splitOnSpace (replaceHyphens p.description)) = false →
      env.hashOf p.large2x ∈ db.posts.map (fun r => r.hash) →
      processStep env db c2 p =
        (.next c2, [.sizeLookup p.large, .storeRead "Bad_Words" "Bad_Words",
                    .storeRead "Nature_Bot_Logged_FB_Posts" "ID",
                    .download p.large2x "image.jpg", .hashImage "image.jpg",
                    .storeRead "Nature_Bot_Logged_FB_Posts" "Image_Hash"]) ∧
      Effect.download p.large2x "image.jpg" ∈ (processStep env db c2 p).2 ∧
      (∀ i, Effect.publish i ∉ (processStep env db c2 p).2) ∧
      (∀ r, Effect.logAppend r ∉ (processStep env db c2 p).2)) := by
  constructor
  · rcases process_photos_shape env photos db c hopen with ⟨_, hdb, _⟩ |
      ⟨p, _, _, hdb, hqid, hqhash, _, _⟩
    · rw [hdb]
      exact ⟨hids, hhashes⟩
    · rw [hdb]
      constructor
      · simp only [Database.log_to_DB, Database.closeConn, List.map_append, List.map_cons,
          List.map_nil, List.nodup_append]
        exact ⟨hids, List.nodup_singleton _, by simpa using hqid⟩
      · simp only [Database.log_to_DB, Database.closeConn, List.map_append, List.map_cons,
          List.map_nil, List.nodup_append]
        exact ⟨hhashes, List.nodup_singleton _, by simpa using hqhash⟩
  · intro p c2 hc he hi hs hd hh
    rw [step_hashReject env db c2 p hopen hc he hi hs hd hh]
    refine ⟨rfl, ?_, ?_, ?_⟩ <;> simp

/-- C1 witness: the uniqueness theorem applied to a concrete store already
holding one record, with a successful publish of a fresh candidate, and the
hash-duplicate rejection applied to a concrete candidate whose hash is already
logged. -/
theorem c1_uniqueness_invariant_witness :
    (((process_photos envOk [samplePhoto "a"] sampleDB1 0).db.posts.map
        (fun r => r.id)).Nodup ∧
     ((process_photos envOk [samplePhoto "a"] sampleDB1 0).db.posts.map
        (fun r => r.hash)).Nodup) ∧
    processStep envOk sampleDB1 0 dupHashPhoto =
      (.next 0, [.sizeLookup "w", .storeRead "Bad_Words" "Bad_Words",
                 .storeRead "Nature_Bot_Logged_FB_Posts" "ID",
                 .download "z" "image.jpg", .hashImage "image.jpg",
                 .storeRead "Nature_Bot_Logged_FB_Posts" "Image_Hash"]) :=
  ⟨(c1_uniqueness_invariant envOk [samplePhoto "a"] sampleDB1 0 (by decide) (by decide)
      (by decide)).1,
   ((c1_uniqueness_invariant envOk [samplePhoto "a"] sampleDB1 0 (by decide) (by decide)
      (by decide)).2 dupHashPhoto 0 (by decide) (by decide) (by decide) (by decide)
      (by decide) (by decide)).1⟩

/-- C7 counterexample: a successful publish appends the record, but the store
connection is then closed, so a subsequent `process_photos` call in the same
process fails with a store error on its very first read instead of observing
the newly appended identifier and hash — re-evaluating the same candidate set
does not reject the duplicate, refuting the immediate-visibility part of the
claim. -/
theorem c7_counterexample :
    (process_photos envOk [samplePhoto "a"] sampleDB 0).result =
      .posted (mkRecord envOk (samplePhoto "a")) ∧
    (process_photos envOk [samplePhoto "a"]
        (process_photos envOk [samplePhoto "a"] sampleDB 0).db 0).result = .storeError ∧
    (process_photos envOk [samplePhoto "a"]
        (process_photos envOk [samplePhoto "a"] sampleDB 0).db 0).result ≠ .exhausted := by
  decide

/-- C7 (amended): on every successful publish, exactly one record is appended
— built from the posted candidate with the ten fields in the source's fixed
tuple order (`mkRecord`) — and the returned store holds exactly the old
records plus that one; but the store connection is closed before returning, so
every subsequent `process_photos` call on a nonempty page in the same process
aborts with a store error instead of reading the new identifier or hash. -/
theorem c7_exactly_once_commit (env : Env) (photos : List Photo) (db : Database) (c : Nat)
    (hopen : db.connOpen = true) :
    ∀ rec, (process_photos env photos db c).result = .posted rec →
      (∃ p, p ∈ photos ∧ rec = mkRecord env p) ∧
      appends (process_photos env photos db c).trace = [rec] ∧
      (process_photos env photos db c).db.posts = db.posts ++ [rec] ∧
      (process_photos env photos db c).db.connOpen = false ∧
      (∀ (q : Photo) (rest : List Photo) (c2 : Nat),
        (process_photos env (q :: rest) (process_photos env photos db c).db c2).result =
          .storeError) := by
  intro rec hrec
  rcases process_photos_shape env photos db c hopen with ⟨hres, _, _⟩ |
    ⟨p, hp, hres, hdb, _, _, htr, _⟩
  · rcases hres with h | h <;> rw [hrec] at h <;> exact absurd h (by simp)
  · rw [hrec] at hres
    injection hres with hEq
    subst hEq
    have hcl : (process_photos env photos db c).db.connOpen = false := by
      rw [hdb]
      rfl
    refine ⟨⟨p, hp, rfl⟩, htr, ?_, hcl, ?_⟩
    · rw [hdb]
      rfl
    · intro q rest c2
      rw [process_photos_cons_halt env q rest _ c2 _ _ _ (step_closed env _ c2 q hcl)]

/-- C7 witness: the amended exactly-once theorem applied to the concrete
successful run. -/
theorem c7_exactly_once_commit_witness :
    appends (process_photos envOk [samplePhoto "a"] sampleDB 0).trace =
      [mkRecord envOk (samplePhoto "a")] ∧
    (process_photos envOk [samplePhoto "a"] sampleDB 0).db.connOpen = false :=
  ⟨(c7_exactly_once_commit envOk [samplePhoto "a"] sampleDB 0 (by decide)
      (mkRecord envOk (samplePhoto "a")) (by decide)).2.1,
   (c7_exactly_once_commit envOk [samplePhoto "a"] sampleDB 0 (by decide)
      (mkRecord envOk (samplePhoto "a")) (by decide)).2.2.2.1⟩

/-- C10: store shutdown on success.  On the successful-publish path the store
connection is closed (the close is in the trace) and every further read on the
returned store fails, so no further read or append can occur in the same
process; on the failsafe and exhausted-page paths the store is returned
untouched with its connection still open. -/
theorem c10_store_shutdown (env : Env) (photos : List Photo) (db : Database) (c : Nat)
    (hopen : db.connOpen = true) :
    (∀ rec, (process_photos env photos db c).result = .posted rec →
      (process_photos env photos db c).db.connOpen = false ∧
      Effect.closeStore ∈ (process_photos env photos db c).trace ∧
      (∀ t col, (process_photos env photos db c).db.valuesOf t col = none)) ∧
    ((process_photos env photos db c).result = .failsafe →
      (process_photos env photos db c).db = db ∧
      (process_photos env photos db c).db.connOpen = true) ∧
    ((process_photos env photos db c).result = .exhausted →
      (process_photos env photos db c).db = db ∧
      (process_photos env photos db c).db.connOpen = true) := by
  rcases process_photos_shape env photos db c hopen with ⟨hres, hdb, htr⟩ |
    ⟨p, hp, hres, hdb, _, _, htr, hclose⟩
  · refine ⟨?_, ?_, ?_⟩
    · intro rec hrec
      rcases hres with h | h <;> rw [hrec] at h <;> exact absurd h (by simp)
    · intro _
      exact ⟨hdb, by rw [hdb]; exact hopen⟩
    · intro _
      exact ⟨hdb, by rw [hdb]; exact hopen⟩
  · have hcl : (process_photos env photos db c).db.connOpen = false := by
      rw [hdb]
      rfl
    refine ⟨?_, ?_, ?_⟩
    · intro rec _
      exact ⟨hcl, hclose, fun t col => valuesOf_closed _ hcl t col⟩
    · intro h
      rw [hres] at h
      exact absurd h (by simp)
    · intro h
      rw [hres] at h
      exact absurd h (by simp)

/-- C10 witness: the shutdown theorem applied to a concrete successful run, a
concrete failsafe run and a concrete exhausted run. -/
theorem c10_store_shutdown_witness :
    (process_photos envOk [samplePhoto "a"] sampleDB 0).db.connOpen = false ∧
    (process_photos envFail [samplePhoto "a"] sampleDB 5).db = sampleDB ∧
    (process_photos envFail [samplePhoto "a"] sampleDB 0).db = sampleDB :=
  ⟨((c10_store_shutdown envOk [samplePhoto "a"] sampleDB 0 (by decide)).1
      (mkRecord envOk (samplePhoto "a")) (by decide)).1,
   ((c10_store_shutdown envFail [samplePhoto "a"] sampleDB 5 (by decide)).2.1 (by decide)).1,
   ((c10_store_shutdown envFail [samplePhoto "a"] sampleDB 0 (by decide)).2.2 (by decide)).1⟩

/-- C2: the attempt counter is NOT shared across pages.  In the concrete
two-page run (four publish failures on page one, two on page two), `main`'s
loop passes `attempted_posts = 0` into the second call even though the first
call's counter ended at 4 — the increments are lost because the integer is
passed by value and `main` never reassigns it — and a sixth failed publish
attempt (candidate `f`) occurs in the run, beyond the claimed run-wide ceiling
of 5. -/
theorem c2_counter_not_shared_across_pages :
    ((mainLoop envFail sampleDB 0 [pageA, pageB]).map (fun x => x.1))[1]? = some 0 ∧
    ((mainLoop envFail sampleDB 0 [pageA, pageB]).map (fun x => x.2.counter))[0]? = some 4 ∧
    ((mainLoop envFail sampleDB 0 [pageA, pageB]).map (fun x => x.1))[1]? ≠
      ((mainLoop envFail sampleDB 0 [pageA, pageB]).map (fun x => x.2.counter))[0]? ∧
    Effect.publish "f" ∈
      (mainLoop envFail sampleDB 0 [pageA, pageB]).foldr (fun x acc => x.2.trace ++ acc) [] := by
  decide

end NaturePoster
